import Mathlib

/-!
Verification development for the training script
`Machine_learning/Training.py` of the pediatric-appendicitis-diagnosis
repository.

The script is a linear pipeline of library calls:
load → encode → split → scale → grid-search → fit → evaluate → save.
We embed the script's own control flow and data handling faithfully:

* pure data handling (column selection, label encoding, the model
  dictionary, the parameter grid, the comparison loop with its single
  try/except, the order of file writes) is translated directly from the
  source;
* external library calls (model fitting, metric computation, the
  standard scaler) are abstracted as fields of an `SkLib` record, so all
  theorems hold for every behaviour of those libraries;
* `GridSearchCV` and the stratified `train_test_split` are modelled from
  their documented behaviour: grid search is an exhaustive argmax over
  the cartesian product of the parameter lists, and the split allocates
  to the test set, per class, a share of rows proportional to the class
  frequency up to rounding, deterministically (the seeded shuffle is
  modelled as the identity permutation, which preserves the documented
  size, stratification, and determinism guarantees).

File writes and stage transitions are recorded in an event trace, so
ordering and persistence claims are statements about the trace.
-/

namespace PedApp

/-- A pandas column: the script distinguishes only the `object` dtype
(strings) from numeric dtypes; numeric cells are modelled as integers. -/
inductive Column where
  | ints (vals : List ℤ)
  | strs (vals : List String)
deriving DecidableEq

/-- A loaded data frame: named columns in order (`pd.read_excel` result). -/
abbrev Dataset := List (String × Column)

/-- The run environment: whether the hard-coded Excel path exists, and the
frame obtained by loading it. -/
structure Env where
  fileExists : Bool
  dataset : Dataset
deriving DecidableEq

/-- sklearn `LabelEncoder().fit_transform` on an integer column: classes are
the distinct values in sorted order, each value is replaced by its class
index. -/
def labelEncodeInts (v : List ℤ) : List ℤ :=
  let cls := v.dedup.insertionSort (· ≤ ·)
  v.map (fun x => (cls.findIdx (fun y => decide (y = x)) : ℤ))

/-- sklearn `LabelEncoder().fit_transform` on a string column. -/
def labelEncodeStrs (s : List String) : List ℤ :=
  let cls := s.dedup.insertionSort (· ≤ ·)
  s.map (fun x => (cls.findIdx (fun y => decide (y = x)) : ℤ))

/-- Whether a column has pandas dtype `object` (line 40: `y.dtype == 'object'`). -/
def isObjectDtype : Column → Bool
  | .ints _ => false
  | .strs _ => true

/-- Number of distinct values of a column (line 40: `len(y.unique())`). -/
def uniqueCount : Column → ℕ
  | .ints v => v.dedup.length
  | .strs s => s.dedup.length

/-- Label-encode a column of either dtype. -/
def labelEncodeCol : Column → List ℤ
  | .ints v => labelEncodeInts v
  | .strs s => labelEncodeStrs s

/-- Lines 40–41: the target is label-encoded iff its dtype is `object` or it
has more than two distinct values; otherwise it is left unchanged. -/
def encodeTarget (c : Column) : Column :=
  if isObjectDtype c || decide (2 < uniqueCount c) then
    .ints (labelEncodeCol c)
  else c

/-- The integer values of a (target) column; an unencoded string column
never reaches this point in the pipeline. -/
def colInts : Column → List ℤ
  | .ints v => v
  | .strs _ => []

/-- Lines 44–47: every `object`-dtype feature column is label-encoded;
numeric columns are untouched. -/
def encodeCol : Column → List ℤ
  | .ints v => v
  | .strs s => labelEncodeStrs s

/-- Encode all feature columns (the loop over `categorical_cols`). -/
def encodeFeatures (cols : Dataset) : List (String × List ℤ) :=
  cols.map (fun nc => (nc.1, encodeCol nc.2))

/-- Row-major view of the encoded feature columns (`n` rows). -/
def featureRows (cols : List (String × List ℤ)) (n : ℕ) : List (List ℤ) :=
  (List.range n).map (fun i => cols.map (fun nc => nc.2.getD i 0))

/-- Rational view of an integer matrix (features handed to the scaler). -/
def toQ (m : List (List ℤ)) : List (List ℚ) :=
  m.map (fun r => r.map (fun x => (x : ℚ)))

/-- Stratified train/test split, modelled from the documented behaviour of
`train_test_split(X, y, test_size=0.2, random_state=42, stratify=y)`:
the test set receives `⌈n/5⌉` rows in total, allocated per class
proportionally to the class frequency up to rounding (cumulative
rounding, which makes the per-class shares telescope to the exact
total).  `rows` pairs each feature row with its label.  The recursion
walks the distinct labels carrying the running prefix count `p`;
`q` is the total test size and `n` the number of rows. -/
def stratGo (rows : List (α × ℤ)) (q n : ℕ) : ℕ → List ℤ → List (α × ℤ) × List (α × ℤ)
  | _, [] => ([], [])
  | p, c :: cs =>
    let cnt := rows.countP (fun r => decide (r.2 = c))
    let t := (p + cnt) * q / n - p * q / n
    let grp := rows.filter (fun r => decide (r.2 = c))
    let rest := stratGo rows q n (p + cnt) cs
    (grp.drop t ++ rest.1, grp.take t ++ rest.2)

/-- The split used by the script (line 50): `seed` is the fixed
`random_state=42`; the seeded shuffle is modelled as the identity
permutation, so the split is a deterministic function of the data.
Returns `(train, test)`. -/
def stratSplit (seed : ℕ) (rows : List (α × ℤ)) : List (α × ℤ) × List (α × ℤ) :=
  let _ := seed
  let n := rows.length
  let q := (n + 4) / 5
  stratGo rows q n 0 ((rows.map Prod.snd).dedup)

/-- LightGBM hyperparameter combination (the keys of `param_grid`). -/
structure ParamComb where
  nEstimators : ℕ
  learningRate : ℚ
  maxDepth : ℕ
  numLeaves : ℕ
  minChildSamples : ℕ
deriving DecidableEq, Inhabited

/-- Line 69: `'n_estimators': [100, 200, 300]`. -/
def nEstimatorsGrid : List ℕ := [100, 200, 300]

/-- The rational 1/100 (= 0.01), as an explicit normalized fraction so that
it evaluates by kernel reduction. -/
def lr001 : ℚ := ⟨1, 100, by decide, by decide⟩

/-- The rational 1/10 (= 0.1). -/
def lr01 : ℚ := ⟨1, 10, by decide, by decide⟩

/-- The rational 3/10 (= 0.3). -/
def lr03 : ℚ := ⟨3, 10, by decide, by decide⟩

/-- Line 70: `'learning_rate': [0.01, 0.1, 0.3]`. -/
def learningRateGrid : List ℚ := [lr001, lr01, lr03]

/-- Line 71: `'max_depth': [3, 5, 10]`. -/
def maxDepthGrid : List ℕ := [3, 5, 10]

/-- Line 72: `'num_leaves': [20, 31, 40]`. -/
def numLeavesGrid : List ℕ := [20, 31, 40]

/-- Line 73: `'min_child_samples': [5, 10, 20]`. -/
def minChildSamplesGrid : List ℕ := [5, 10, 20]

/-- The cartesian product of the five parameter lists: the candidate set of
an exhaustive grid search over `param_grid`. -/
def paramCombos : List ParamComb :=
  nEstimatorsGrid.flatMap (fun ne =>
    learningRateGrid.flatMap (fun lr =>
      maxDepthGrid.flatMap (fun md =>
        numLeavesGrid.flatMap (fun nl =>
          minChildSamplesGrid.map (fun mc =>
            ⟨ne, lr, md, nl, mc⟩)))))

/-- The configuration handed to `GridSearchCV` (lines 80–86). -/
structure GridCfg where
  scoring : String
  cv : ℕ
  nJobs : ℤ
deriving DecidableEq

/-- `scoring='f1_weighted', cv=5, n_jobs=-1`. -/
def scriptGridCfg : GridCfg := ⟨"f1_weighted", 5, -1⟩

/-- Keep the better-scoring of two candidates, preferring the earlier one on
ties (as `GridSearchCV` picks the first index attaining the best score). -/
def pickBetter (score : α → ℚ) (a b : α) : α :=
  if score a < score b then b else a

/-- `GridSearchCV(...).best_estimator_`'s parameter setting, modelled from
the documented behaviour: the argmax of the cross-validated score over
the full candidate set. -/
def gridSearchBest (cfg : GridCfg) (score : ParamComb → ℚ) : ParamComb :=
  let _ := cfg
  paramCombos.foldl (pickBetter score) paramCombos.headI

/-- The estimators of the script, by constructor:
`SVC(probability=True, kernel="linear", random_state=42)`,
`RandomForestClassifier(n_jobs=-1, random_state=42)`, and
`LGBMClassifier(random_state=42)` with a grid parameter setting. -/
inductive ModelSpec where
  | svc (probability : Bool) (kernel : String) (randomState : ℕ)
  | randomForest (nJobs : ℤ) (randomState : ℕ)
  | lgbm (randomState : ℕ) (params : ParamComb)
deriving DecidableEq

/-- Lines 96–100: the `models` dictionary, keyed by display name; the third
entry is the grid-search best estimator. -/
def modelsList (best : ParamComb) : List (String × ModelSpec) :=
  [("SVM", .svc true "linear" 42),
   ("Random Forest", .randomForest (-1) 42),
   ("LightGBM Optimisé", .lgbm 42 best)]

/-- The per-model record stored in `results` (lines 125–131). -/
structure Metrics where
  accuracy : ℚ
  precision : ℚ
  recallVal : ℚ
  f1 : ℚ
  aucRoc : Option ℚ
deriving DecidableEq

/-- The external library surface the script calls into.  Fitting and
prediction may raise (the `try` body); metric functions take the
`average` keyword as a string; `cvScore` is the cross-validated score
`GridSearchCV` computes for one candidate (5-fold, per the
configuration); the scaler is represented by its fitted state. -/
structure SkLib where
  cvScore : ParamComb → List (List ℚ) → List ℤ → ℚ
  fitPredict : ModelSpec → List (List ℚ) → List ℤ → List (List ℚ) → Except String (List ℤ)
  predictProba : ModelSpec → List (List ℚ) → List ℤ → List (List ℚ) → List (List ℚ)
  hasPredictProba : ModelSpec → Bool
  accuracyScore : List ℤ → List ℤ → ℚ
  precisionScore : List ℤ → List ℤ → String → ℚ
  recallScore : List ℤ → List ℤ → String → ℚ
  f1Score : List ℤ → List ℤ → String → ℚ
  rocAucScore : List ℤ → List ℚ → ℚ
  scalerFit : List (List ℚ) → List ℚ × List ℚ
  scalerTransform : List ℚ × List ℚ → List (List ℚ) → List (List ℚ)

/-- The body of the `try` block (lines 108–131) for one model: fit and
predict, compute the four weighted metrics, and compute AUC-ROC from
column 1 of `predict_proba` when the attribute exists, `None`
otherwise. -/
def evalOne (lib : SkLib) (Xtr : List (List ℚ)) (ytr : List ℤ)
    (Xte : List (List ℚ)) (yte : List ℤ) (m : ModelSpec) : Except String Metrics :=
  match lib.fitPredict m Xtr ytr Xte with
  | .error e => .error e
  | .ok yPred =>
    let acc := lib.accuracyScore yte yPred
    let prec := lib.precisionScore yte yPred "weighted"
    let rcl := lib.recallScore yte yPred "weighted"
    let f1v := lib.f1Score yte yPred "weighted"
    let yProb :=
      if lib.hasPredictProba m then
        some ((lib.predictProba m Xtr ytr Xte).map (fun row => row.getD 1 0))
      else none
    let auc := yProb.map (fun pr => lib.rocAucScore yte pr)
    .ok ⟨acc, prec, rcl, f1v, auc⟩

/-- Lines 105–134: the comparison loop.  Each model is evaluated inside a
`try/except`: a model whose evaluation raises is skipped (its name never
enters `results`) and the loop continues with the remaining models. -/
def runModels (f : ModelSpec → Except String Metrics) :
    List (String × ModelSpec) → List (String × Metrics)
  | [] => []
  | nm :: rest =>
    match f nm.2 with
    | .ok r => (nm.1, r) :: runModels f rest
    | .error _ => runModels f rest

/-- Pipeline stages of the script, in source order. -/
inductive Stage where
  | load
  | encode
  | split
  | scale
  | gridSearch
  | fitEval
deriving DecidableEq

/-- What a file write persists: a pre-scaling integer frame, a scaled
rational frame, a label vector, the pickled model, or the pickled
scaler. -/
inductive FileData where
  | csvInt (rows : List (List ℤ))
  | csvQ (rows : List (List ℚ))
  | csvLabels (vals : List ℤ)
  | model (m : ModelSpec)
  | scaler (s : List ℚ × List ℚ)
deriving DecidableEq

/-- One event of a run: entering a stage, or writing a file. -/
inductive Ev where
  | stage (s : Stage)
  | write (file : String) (data : FileData)
deriving DecidableEq

/-- The shape of an event, forgetting file contents. -/
inductive EvKind where
  | stage (s : Stage)
  | write (file : String)
deriving DecidableEq

/-- Forget an event's payload. -/
def evKind : Ev → EvKind
  | .stage s => .stage s
  | .write f _ => .write f

/-- The writes of a trace, in order. -/
def writesOf (t : List Ev) : List (String × FileData) :=
  t.filterMap (fun e =>
    match e with
    | .write f d => some (f, d)
    | .stage _ => none)

/-- Bool test: is this event a write to file `f`? -/
def isWriteTo (f : String) : Ev → Bool
  | .write g _ => g == f
  | .stage _ => false

/-- Bool test: is this event the marker of stage `s`? -/
def isStageMark (s : Stage) : Ev → Bool
  | .stage s' => decide (s' = s)
  | .write _ _ => false

/-- Line 37: the target column (`dataset[target_col]`). -/
def targetColOf (ds : Dataset) : Column :=
  (ds.lookup "Diagnosis").getD (.ints [])

/-- Line 36: `dataset.drop(columns=[target_col])`. -/
def featuresOf (ds : Dataset) : Dataset :=
  ds.filter (fun nc => decide (nc.1 ≠ "Diagnosis"))

/-- The (possibly encoded) target values fed to the split. -/
def yValsOf (ds : Dataset) : List ℤ :=
  colInts (encodeTarget (targetColOf ds))

/-- Encoded feature rows paired with their labels. -/
def pairedOf (ds : Dataset) : List (List ℤ × ℤ) :=
  (featureRows (encodeFeatures (featuresOf ds)) (yValsOf ds).length).zip (yValsOf ds)

/-- Line 50: the train/test split with `random_state=42`. -/
def splitOf (ds : Dataset) : List (List ℤ × ℤ) × List (List ℤ × ℤ) :=
  stratSplit 42 (pairedOf ds)

/-- `X_train` as it is right after the split (the copy taken on line 56). -/
def XtrainPre (ds : Dataset) : List (List ℤ) :=
  (splitOf ds).1.map Prod.fst

/-- `X_test` as it is right after the split (the copy taken on line 57). -/
def XtestPre (ds : Dataset) : List (List ℤ) :=
  (splitOf ds).2.map Prod.fst

/-- `y_train`. -/
def ytrainOf (ds : Dataset) : List ℤ :=
  (splitOf ds).1.map Prod.snd

/-- `y_test`. -/
def ytestOf (ds : Dataset) : List ℤ :=
  (splitOf ds).2.map Prod.snd

/-- Line 60–61: the `StandardScaler` fitted on the training features. -/
def scalerOf (lib : SkLib) (ds : Dataset) : List ℚ × List ℚ :=
  lib.scalerFit (toQ (XtrainPre ds))

/-- Line 61: `X_train = scaler.fit_transform(X_train)`. -/
def XtrainScaled (lib : SkLib) (ds : Dataset) : List (List ℚ) :=
  lib.scalerTransform (scalerOf lib ds) (toQ (XtrainPre ds))

/-- Line 62: `X_test = scaler.transform(X_test)`. -/
def XtestScaled (lib : SkLib) (ds : Dataset) : List (List ℚ) :=
  lib.scalerTransform (scalerOf lib ds) (toQ (XtestPre ds))

/-- Lines 80–89: the grid-search best parameter setting, scored on the
scaled training data. -/
def bestOf (lib : SkLib) (ds : Dataset) : ParamComb :=
  gridSearchBest scriptGridCfg (fun p => lib.cvScore p (XtrainScaled lib ds) (ytrainOf ds))

/-- Lines 103–134: the `results` dictionary of the comparison loop. -/
def resultsOf (lib : SkLib) (ds : Dataset) : List (String × Metrics) :=
  runModels
    (evalOne lib (XtrainScaled lib ds) (ytrainOf ds) (XtestScaled lib ds) (ytestOf ds))
    (modelsList (bestOf lib ds))

/-- The event trace of a successful run, in source order: load (24), encode
(40–47), split (50), scale (60–62), the two pre-scaling CSV writes
(64–65), grid search (80–90), the comparison loop (105–134), then the
remaining writes (148–155). -/
def traceOf (lib : SkLib) (ds : Dataset) : List Ev :=
  [.stage .load,
   .stage .encode,
   .stage .split,
   .stage .scale,
   .write "data/X_train_original.csv" (.csvInt (XtrainPre ds)),
   .write "data/X_test_original.csv" (.csvInt (XtestPre ds)),
   .stage .gridSearch,
   .stage .fitEval,
   .write "data/X_train.csv" (.csvQ (XtrainScaled lib ds)),
   .write "data/X_test.csv" (.csvQ (XtestScaled lib ds)),
   .write "data/y_train.csv" (.csvLabels (ytrainOf ds)),
   .write "data/y_test.csv" (.csvLabels (ytestOf ds)),
   .write "data/best_model.pkl" (.model (.lgbm 42 (bestOf lib ds))),
   .write "data/scaler.pkl" (.scaler (scalerOf lib ds))]

/-- A successful run: the trace and the results dictionary. -/
def runBody (lib : SkLib) (ds : Dataset) : List Ev × List (String × Metrics) :=
  (traceOf lib ds, resultsOf lib ds)

/-- Line 21's message (the f-string with the hard-coded path). -/
def fileNotFoundMsg : String :=
  "❌ Fichier non trouvé : C:/Users/hp/Documents/GitHub/pediatric-appendicitis-diagnosis/data/cleaned_data.xlsx"

/-- Line 33's message. -/
def valueErrorMsg : String :=
  "❌ La colonne cible Diagnosis est introuvable dans le dataset."

/-- The two errors the script can raise. -/
inductive ScriptErr where
  | fileNotFound (msg : String)
  | valueError (msg : String)
deriving DecidableEq

/-- The whole script: the existence check (line 20) guards loading, the
`Diagnosis` check (line 32) guards everything else, and the remainder is
the linear pipeline `runBody`. -/
def runScript (lib : SkLib) (env : Env) :
    Except ScriptErr (List Ev × List (String × Metrics)) :=
  if env.fileExists then
    match env.dataset.lookup "Diagnosis" with
    | some _ => .ok (runBody lib env.dataset)
    | none => .error (.valueError valueErrorMsg)
  else .error (.fileNotFound fileNotFoundMsg)

deriving instance DecidableEq for Except

/-- A concrete, fully computable instantiation of the library surface, used
to evaluate the pipeline on explicit inputs: the SVM and random forest
predict class 1 on every test row, the LightGBM model predicts class 0,
every metric scores 1 on a perfect prediction vector and 0 otherwise,
and the scaler is the identity transformation. -/
def lib0 : SkLib where
  cvScore := fun _ _ _ => 0
  fitPredict := fun m _ _ Xte =>
    match m with
    | .svc _ _ _ => .ok (Xte.map (fun _ => 1))
    | .randomForest _ _ => .ok (Xte.map (fun _ => 1))
    | .lgbm _ _ => .ok (Xte.map (fun _ => 0))
  predictProba := fun _ _ _ Xte => Xte.map (fun _ => [0, 1])
  hasPredictProba := fun _ => true
  accuracyScore := fun yt yp => if yt = yp then 1 else 0
  precisionScore := fun yt yp _ => if yt = yp then 1 else 0
  recallScore := fun yt yp _ => if yt = yp then 1 else 0
  f1Score := fun yt yp _ => if yt = yp then 1 else 0
  rocAucScore := fun _ _ => 1
  scalerFit := fun _ => ([0], [1])
  scalerTransform := fun _ m => m

/-- A concrete run environment: the file exists and holds one numeric
feature column and a binary numeric `Diagnosis` column with five rows. -/
def env0 : Env :=
  ⟨true, [("A", .ints [1, 2, 3, 4, 5]), ("Diagnosis", .ints [0, 1, 0, 1, 1])]⟩

/-- Claim C10: the target column is label-encoded iff its dtype is `object`
or it has more than 2 unique values; in particular a numeric target with
at most 2 unique values is passed on unchanged, and a string (`object`)
target is always encoded. -/
theorem target_encoded_iff_object_or_many (v : List ℤ) (s : List String) :
    (v.dedup.length ≤ 2 → encodeTarget (.ints v) = .ints v)
    ∧ (2 < v.dedup.length → encodeTarget (.ints v) = .ints (labelEncodeInts v))
    ∧ encodeTarget (.strs s) = .ints (labelEncodeStrs s) := by
  refine ⟨fun h => ?_, fun h => ?_, ?_⟩
  · simp [encodeTarget, isObjectDtype, uniqueCount, Nat.not_lt.mpr h]
  · simp [encodeTarget, isObjectDtype, uniqueCount, labelEncodeCol, h]
  · simp [encodeTarget, isObjectDtype, labelEncodeCol]

/-- Witness for C10 at concrete columns: `[5, 3, 5]` has two distinct values
and is returned unchanged; `[3, 1, 2]` has three and is encoded. -/
theorem target_encoded_iff_object_or_many_witness :
    encodeTarget (.ints [5, 3, 5]) = .ints [5, 3, 5]
    ∧ encodeTarget (.ints [3, 1, 2]) = .ints (labelEncodeInts [3, 1, 2]) :=
  ⟨(target_encoded_iff_object_or_many [5, 3, 5] []).1 (by decide),
   (target_encoded_iff_object_or_many [3, 1, 2] []).2.1 (by decide)⟩

/-- Claim C5: for every model whose `try` body succeeds, the AUC-ROC entry
is the ROC area computed from column 1 of `predict_proba` on the test
features against the test labels when the model has `predict_proba`, and
`None` otherwise. -/
theorem auc_from_predict_proba_col1 (lib : SkLib) (Xtr : List (List ℚ)) (ytr : List ℤ)
    (Xte : List (List ℚ)) (yte : List ℤ) (m : ModelSpec) (r : Metrics)
    (h : evalOne lib Xtr ytr Xte yte m = .ok r) :
    r.aucRoc =
      if lib.hasPredictProba m then
        some (lib.rocAucScore yte
          ((lib.predictProba m Xtr ytr Xte).map (fun row => row.getD 1 0)))
      else none := by
  unfold evalOne at h
  cases hf : lib.fitPredict m Xtr ytr Xte with
  | error e => rw [hf] at h; exact absurd h (by simp)
  | ok yp =>
    rw [hf] at h
    simp only [Except.ok.injEq] at h
    subst h
    by_cases hp : lib.hasPredictProba m <;> simp [hp]

/-- Witness for C5 at the concrete library `lib0` (which has
`predict_proba` everywhere) and a one-row test set. -/
theorem auc_from_predict_proba_col1_witness :
    (⟨1, 1, 1, 1, some 1⟩ : Metrics).aucRoc =
      if lib0.hasPredictProba (.svc true "linear" 42) then
        some (lib0.rocAucScore [1]
          ((lib0.predictProba (.svc true "linear" 42) [[0]] [1] [[0]]).map
            (fun row => row.getD 1 0)))
      else none :=
  auc_from_predict_proba_col1 lib0 [[0]] [1] [[0]] [1] (.svc true "linear" 42)
    ⟨1, 1, 1, 1, some 1⟩ rfl

/-- Claim C6: the script raises `FileNotFoundError` when the input path does
not exist — before any loading, so independently of the file's content —
and raises `ValueError` when the loaded frame has no `Diagnosis` column —
before any training, so independently of the library behaviour; when the
file exists and has the column, neither error branch is reachable and
the run succeeds. -/
theorem error_branches_exactly (lib lib2 : SkLib) (env : Env) :
    (env.fileExists = false →
      runScript lib env = .error (.fileNotFound fileNotFoundMsg)
      ∧ ∀ ds : Dataset, runScript lib ⟨false, ds⟩ = .error (.fileNotFound fileNotFoundMsg))
    ∧ (env.fileExists = true → env.dataset.lookup "Diagnosis" = none →
      runScript lib env = .error (.valueError valueErrorMsg)
      ∧ runScript lib2 env = runScript lib env)
    ∧ (env.fileExists = true → (env.dataset.lookup "Diagnosis").isSome = true →
      runScript lib env = .ok (runBody lib env.dataset)) := by
  refine ⟨fun h => ⟨?_, fun ds => ?_⟩, fun h1 h2 => ⟨?_, ?_⟩, fun h1 h2 => ?_⟩
  · simp [runScript, h]
  · simp [runScript]
  · simp [runScript, h1, h2]
  · simp [runScript, h1, h2]
  · obtain ⟨c, hc⟩ := Option.isSome_iff_exists.mp h2
    simp [runScript, h1, hc]

/-- Witness for C6: the missing-file error, the missing-column error, and a
successful run, each at a concrete environment. -/
theorem error_branches_exactly_witness :
    runScript lib0 ⟨false, env0.dataset⟩ = .error (.fileNotFound fileNotFoundMsg)
    ∧ runScript lib0 ⟨true, [("A", .ints [1])]⟩ = .error (.valueError valueErrorMsg)
    ∧ runScript lib0 env0 = .ok (runBody lib0 env0.dataset) :=
  ⟨((error_branches_exactly lib0 lib0 ⟨false, env0.dataset⟩).1 rfl).1,
   ((error_branches_exactly lib0 lib0 ⟨true, [("A", .ints [1])]⟩).2.1 rfl rfl).1,
   (error_branches_exactly lib0 lib0 env0).2.2 rfl rfl⟩

/-- Claim C3: in the comparison loop, a model whose evaluation raises is
omitted from `results` while the exception is swallowed, and every model
whose evaluation succeeds still appears with its metrics — whatever the
evaluation function does on each of the three models. -/
theorem try_except_per_model (b : ParamComb) (f : ModelSpec → Except String Metrics) :
    (∀ n m, (n, m) ∈ modelsList b → ∀ e, f m = .error e →
      (runModels f (modelsList b)).lookup n = none)
    ∧ (∀ n m, (n, m) ∈ modelsList b → ∀ r, f m = .ok r →
      (runModels f (modelsList b)).lookup n = some r) := by
  constructor <;>
  · intro n m hm x hfx
    simp only [modelsList, List.mem_cons, Prod.mk.injEq, List.not_mem_nil, or_false] at hm
    cases hS : f (ModelSpec.svc true "linear" 42) <;>
      cases hR : f (ModelSpec.randomForest (-1) 42) <;>
        cases hL : f (ModelSpec.lgbm 42 b) <;>
          rcases hm with ⟨rfl, rfl⟩ | ⟨rfl, rfl⟩ | ⟨rfl, rfl⟩ <;>
            simp_all +decide [runModels, modelsList, List.lookup]

/-- Witness for C3: with an evaluation that raises on the SVM and succeeds
on the others, the SVM is omitted and the other two models are still in
`results`. -/
theorem try_except_per_model_witness :
    (runModels
        (fun m => match m with
          | .svc _ _ _ => .error "boom"
          | _ => .ok ⟨1, 1, 1, 1, none⟩)
        (modelsList ⟨100, lr001, 3, 20, 5⟩)).lookup "SVM" = none
    ∧ (runModels
        (fun m => match m with
          | .svc _ _ _ => .error "boom"
          | _ => .ok ⟨1, 1, 1, 1, none⟩)
        (modelsList ⟨100, lr001, 3, 20, 5⟩)).lookup "Random Forest"
      = some ⟨1, 1, 1, 1, none⟩ :=
  ⟨(try_except_per_model ⟨100, lr001, 3, 20, 5⟩ _).1 "SVM" (.svc true "linear" 42)
      (by decide) "boom" rfl,
   (try_except_per_model ⟨100, lr001, 3, 20, 5⟩ _).2 "Random Forest"
      (.randomForest (-1) 42) (by decide) ⟨1, 1, 1, 1, none⟩ rfl⟩

/-- Claim C7: exactly the three listed models enter the comparison — the
linear-kernel probability-enabled SVM, the random forest, and the
grid-search best LightGBM estimator — and every successfully evaluated
model's record holds accuracy, weighted precision, weighted recall,
weighted F1, and the AUC-ROC entry, computed on the test labels from the
fitted model's predictions. -/
theorem exactly_three_models_compared (b : ParamComb) (lib : SkLib)
    (Xtr : List (List ℚ)) (ytr : List ℤ) (Xte : List (List ℚ)) (yte : List ℤ)
    (ds : Dataset) :
    (modelsList b).map Prod.fst = ["SVM", "Random Forest", "LightGBM Optimisé"]
    ∧ (modelsList b).map Prod.snd =
        [.svc true "linear" 42, .randomForest (-1) 42, .lgbm 42 b]
    ∧ (modelsList b).length = 3
    ∧ resultsOf lib ds =
        runModels
          (evalOne lib (XtrainScaled lib ds) (ytrainOf ds) (XtestScaled lib ds) (ytestOf ds))
          (modelsList (bestOf lib ds))
    ∧ ∀ n m, (n, m) ∈ modelsList b → ∀ r, evalOne lib Xtr ytr Xte yte m = .ok r →
        ∃ yp, lib.fitPredict m Xtr ytr Xte = .ok yp
          ∧ r.accuracy = lib.accuracyScore yte yp
          ∧ r.precision = lib.precisionScore yte yp "weighted"
          ∧ r.recallVal = lib.recallScore yte yp "weighted"
          ∧ r.f1 = lib.f1Score yte yp "weighted"
          ∧ r.aucRoc =
              (if lib.hasPredictProba m then
                some (lib.rocAucScore yte
                  ((lib.predictProba m Xtr ytr Xte).map (fun row => row.getD 1 0)))
              else none) := by
  refine ⟨rfl, rfl, rfl, rfl, ?_⟩
  intro n m _ r h
  unfold evalOne at h
  cases hf : lib.fitPredict m Xtr ytr Xte with
  | error e => rw [hf] at h; exact absurd h (by simp)
  | ok yp =>
    rw [hf] at h
    simp only [Except.ok.injEq] at h
    subst h
    refine ⟨yp, rfl, rfl, rfl, rfl, rfl, ?_⟩
    by_cases hp : lib.hasPredictProba m <;> simp [hp]

/-- Witness for C7: the SVM entry of the model list, evaluated with `lib0`
on a one-row test set, yields the perfect-score record. -/
theorem exactly_three_models_compared_witness :
    ∃ yp, lib0.fitPredict (.svc true "linear" 42) [[0]] [1] [[0]] = .ok yp
      ∧ (⟨1, 1, 1, 1, some 1⟩ : Metrics).accuracy = lib0.accuracyScore [1] yp
      ∧ (⟨1, 1, 1, 1, some 1⟩ : Metrics).precision = lib0.precisionScore [1] yp "weighted"
      ∧ (⟨1, 1, 1, 1, some 1⟩ : Metrics).recallVal = lib0.recallScore [1] yp "weighted"
      ∧ (⟨1, 1, 1, 1, some 1⟩ : Metrics).f1 = lib0.f1Score [1] yp "weighted"
      ∧ (⟨1, 1, 1, 1, some 1⟩ : Metrics).aucRoc =
          (if lib0.hasPredictProba (.svc true "linear" 42) then
            some (lib0.rocAucScore [1]
              ((lib0.predictProba (.svc true "linear" 42) [[0]] [1] [[0]]).map
                (fun row => row.getD 1 0)))
          else none) :=
  (exactly_three_models_compared ⟨100, lr001, 3, 20, 5⟩ lib0 [[0]] [1] [[0]] [1]
      env0.dataset).2.2.2.2 "SVM" (.svc true "linear" 42) (by decide)
    ⟨1, 1, 1, 1, some 1⟩ rfl

/-- The accumulator of a `pickBetter` fold never loses score. -/
theorem foldl_pickBetter_acc_le (score : α → ℚ) :
    ∀ (l : List α) (a : α), score a ≤ score (l.foldl (pickBetter score) a)
  | [], _ => le_refl _
  | b :: l, a => by
    have h1 : score a ≤ score (pickBetter score a b) := by
      unfold pickBetter; split
      · exact le_of_lt (by assumption)
      · exact le_refl _
    exact le_trans h1 (foldl_pickBetter_acc_le score l _)

/-- A `pickBetter` fold returns its seed or a list element. -/
theorem foldl_pickBetter_mem (score : α → ℚ) :
    ∀ (l : List α) (a : α),
      l.foldl (pickBetter score) a = a ∨ l.foldl (pickBetter score) a ∈ l
  | [], _ => Or.inl rfl
  | b :: l, a => by
    rcases foldl_pickBetter_mem score l (pickBetter score a b) with h | h
    · rw [List.foldl_cons, h]
      unfold pickBetter; split
      · exact Or.inr (List.mem_cons_self _ _)
      · exact Or.inl rfl
    · exact Or.inr (List.mem_cons_of_mem _ h)

/-- A `pickBetter` fold scores at least every list element. -/
theorem foldl_pickBetter_le_of_mem (score : α → ℚ) :
    ∀ (l : List α) (a x : α), x ∈ l → score x ≤ score (l.foldl (pickBetter score) a)
  | b :: l, a, x, hx => by
    rcases List.mem_cons.mp hx with rfl | h
    · have h1 : score x ≤ score (pickBetter score a x) := by
        unfold pickBetter; split
        · exact le_refl _
        · exact le_of_not_lt (by assumption)
      exact le_trans h1 (foldl_pickBetter_acc_le score l _)
    · exact foldl_pickBetter_le_of_mem score l _ x h

/-- Claim C2: the grid search is exhaustive over the fixed grid — the
candidate set is the full cartesian product of the five parameter lists,
with 3^5 = 243 combinations — it is configured with 5-fold
cross-validation and weighted-F1 scoring, and the selected estimator
maximizes the cross-validated score over every candidate. -/
theorem grid_search_exhaustive_argmax (score : ParamComb → ℚ) :
    paramCombos.length = 243
    ∧ scriptGridCfg.scoring = "f1_weighted"
    ∧ scriptGridCfg.cv = 5
    ∧ gridSearchBest scriptGridCfg score ∈ paramCombos
    ∧ ∀ c ∈ paramCombos, score c ≤ score (gridSearchBest scriptGridCfg score) := by
  refine ⟨rfl, rfl, rfl, ?_, ?_⟩
  · rcases foldl_pickBetter_mem score paramCombos paramCombos.headI with h | h
    · have hcons : paramCombos = paramCombos.headI :: paramCombos.tail := rfl
      show paramCombos.foldl (pickBetter score) paramCombos.headI ∈ paramCombos
      rw [h, hcons]
      exact List.mem_cons_self _ _
    · exact h
  · intro c hc
    exact foldl_pickBetter_le_of_mem score paramCombos paramCombos.headI c hc

/-- A constant scoring function, used to instantiate the grid-search
theorem on a concrete input. -/
def constScore : ParamComb → ℚ := fun _ => 0

/-- Witness for C2: the first grid combination
`(n_estimators=100, learning_rate=0.01, max_depth=3, num_leaves=20,
min_child_samples=5)` is a candidate, and under `constScore` it scores
no more than the selected estimator. -/
theorem grid_search_exhaustive_argmax_witness :
    (⟨100, lr001, 3, 20, 5⟩ : ParamComb) ∈ paramCombos
    ∧ constScore ⟨100, lr001, 3, 20, 5⟩
        ≤ constScore (gridSearchBest scriptGridCfg constScore) :=
  ⟨by decide,
   (grid_search_exhaustive_argmax constScore).2.2.2.2 ⟨100, lr001, 3, 20, 5⟩ (by decide)⟩

/-- Claim C1 (amended): after a successful run the script persists exactly
eight files, all under `data/`: the two pre-scaling split frames, the two
scaled split frames, the two label vectors, the model, and the fitted
scaler; the model written to `data/best_model.pkl` is the grid-search
best LightGBM estimator (not necessarily the top scorer among the three
compared classifiers), and `data/scaler.pkl` holds the scaler fitted on
the training features. -/
theorem persists_model_scaler_and_splits (lib : SkLib) (env : Env)
    (h1 : env.fileExists = true)
    (h2 : (env.dataset.lookup "Diagnosis").isSome = true) :
    runScript lib env = .ok (runBody lib env.dataset)
    ∧ (writesOf (traceOf lib env.dataset)).map Prod.fst =
        ["data/X_train_original.csv", "data/X_test_original.csv", "data/X_train.csv",
         "data/X_test.csv", "data/y_train.csv", "data/y_test.csv",
         "data/best_model.pkl", "data/scaler.pkl"]
    ∧ (writesOf (traceOf lib env.dataset)).lookup "data/best_model.pkl"
        = some (.model (.lgbm 42 (bestOf lib env.dataset)))
    ∧ (writesOf (traceOf lib env.dataset)).lookup "data/scaler.pkl"
        = some (.scaler (scalerOf lib env.dataset))
    ∧ ∀ f ∈ (writesOf (traceOf lib env.dataset)).map Prod.fst,
        ∃ g : String, f = "data/" ++ g := by
  obtain ⟨c, hc⟩ := Option.isSome_iff_exists.mp h2
  refine ⟨by simp [runScript, h1, hc], rfl, rfl, rfl, ?_⟩
  intro f hf
  have hnames : (writesOf (traceOf lib env.dataset)).map Prod.fst =
      ["data/X_train_original.csv", "data/X_test_original.csv", "data/X_train.csv",
       "data/X_test.csv", "data/y_train.csv", "data/y_test.csv",
       "data/best_model.pkl", "data/scaler.pkl"] := rfl
  rw [hnames] at hf
  fin_cases hf
  · exact ⟨"X_train_original.csv", by decide⟩
  · exact ⟨"X_test_original.csv", by decide⟩
  · exact ⟨"X_train.csv", by decide⟩
  · exact ⟨"X_test.csv", by decide⟩
  · exact ⟨"y_train.csv", by decide⟩
  · exact ⟨"y_test.csv", by decide⟩
  · exact ⟨"best_model.pkl", by decide⟩
  · exact ⟨"scaler.pkl", by decide⟩

/-- Witness for C1 (amended) at the concrete run `runScript lib0 env0`. -/
theorem persists_model_scaler_and_splits_witness :
    runScript lib0 env0 = .ok (runBody lib0 env0.dataset)
    ∧ (writesOf (traceOf lib0 env0.dataset)).map Prod.fst =
        ["data/X_train_original.csv", "data/X_test_original.csv", "data/X_train.csv",
         "data/X_test.csv", "data/y_train.csv", "data/y_test.csv",
         "data/best_model.pkl", "data/scaler.pkl"]
    ∧ (writesOf (traceOf lib0 env0.dataset)).lookup "data/best_model.pkl"
        = some (.model (.lgbm 42 (bestOf lib0 env0.dataset)))
    ∧ (writesOf (traceOf lib0 env0.dataset)).lookup "data/scaler.pkl"
        = some (.scaler (scalerOf lib0 env0.dataset))
    ∧ ∀ f ∈ (writesOf (traceOf lib0 env0.dataset)).map Prod.fst,
        ∃ g : String, f = "data/" ++ g :=
  persists_model_scaler_and_splits lib0 env0 rfl rfl

set_option maxRecDepth 8000 in
/-- Counterexample to C1 as stated: in the concrete run `runScript lib0
env0`, the comparison records a strictly better weighted F1 (and every
other metric) for the SVM than for the tuned LightGBM model, yet the
model persisted to `data/best_model.pkl` is the LightGBM estimator — the
script never consults `results` when saving, so the saved model is not
the best of the compared classifiers. -/
theorem saved_model_not_best_of_compared :
    (writesOf (traceOf lib0 env0.dataset)).lookup "data/best_model.pkl"
      = some (.model (.lgbm 42 ⟨100, lr001, 3, 20, 5⟩))
    ∧ (resultsOf lib0 env0.dataset).lookup "SVM" = some ⟨1, 1, 1, 1, some 1⟩
    ∧ (resultsOf lib0 env0.dataset).lookup "LightGBM Optimisé"
      = some ⟨0, 0, 0, 0, some 1⟩
    ∧ (ModelSpec.lgbm 42 ⟨100, lr001, 3, 20, 5⟩ ≠ .svc true "linear" 42)
    ∧ ((0 : ℚ) < 1) := by
  refine ⟨by decide, by decide, by decide, by decide, by norm_num⟩

/-- Claim C4 (amended): every successful run's trace is exactly the stages
load, encode, split, scale, grid-search, fit/evaluate in this order, with
the writes of the model, scaler and scaled split files all coming last —
except that the two pre-scaling split copies (`X_train_original.csv`,
`X_test_original.csv`) are written right after scaling and before the
grid search. -/
theorem pipeline_stage_order (lib : SkLib) (env : Env)
    (h1 : env.fileExists = true)
    (h2 : (env.dataset.lookup "Diagnosis").isSome = true) :
    runScript lib env = .ok (runBody lib env.dataset)
    ∧ (traceOf lib env.dataset).map evKind =
        [.stage .load, .stage .encode, .stage .split, .stage .scale,
         .write "data/X_train_original.csv", .write "data/X_test_original.csv",
         .stage .gridSearch, .stage .fitEval,
         .write "data/X_train.csv", .write "data/X_test.csv",
         .write "data/y_train.csv", .write "data/y_test.csv",
         .write "data/best_model.pkl", .write "data/scaler.pkl"] := by
  obtain ⟨c, hc⟩ := Option.isSome_iff_exists.mp h2
  exact ⟨by simp [runScript, h1, hc], rfl⟩

/-- Witness for C4 (amended) at the concrete run `runScript lib0 env0`. -/
theorem pipeline_stage_order_witness :
    runScript lib0 env0 = .ok (runBody lib0 env0.dataset)
    ∧ (traceOf lib0 env0.dataset).map evKind =
        [.stage .load, .stage .encode, .stage .split, .stage .scale,
         .write "data/X_train_original.csv", .write "data/X_test_original.csv",
         .stage .gridSearch, .stage .fitEval,
         .write "data/X_train.csv", .write "data/X_test.csv",
         .write "data/y_train.csv", .write "data/y_test.csv",
         .write "data/best_model.pkl", .write "data/scaler.pkl"] :=
  pipeline_stage_order lib0 env0 rfl rfl

set_option maxRecDepth 8000 in
/-- Counterexample to C4 as stated: in the concrete run `runScript lib0
env0`, the write of the split file `data/X_train_original.csv` happens at
trace position 4, before the grid-search stage at position 6 and the
fit/evaluate stage at position 7 — so the split files are not all saved
after fitting and evaluation. -/
theorem split_copy_written_before_grid_search :
    (traceOf lib0 env0.dataset).findIdx (isWriteTo "data/X_train_original.csv") = 4
    ∧ (traceOf lib0 env0.dataset).findIdx (isStageMark Stage.gridSearch) = 6
    ∧ (traceOf lib0 env0.dataset).findIdx (isStageMark Stage.fitEval) = 7
    ∧ (traceOf lib0 env0.dataset).length = 14
    ∧ runScript lib0 env0 = .ok (traceOf lib0 env0.dataset, resultsOf lib0 env0.dataset) := by
  refine ⟨by decide, by decide, by decide, by decide, by decide⟩

/-- Claim C9: the `data/X_train_original.csv` and `data/X_test_original.csv`
writes carry exactly the pre-scaling split frames (the copies taken
before the scaler runs, which fitting and applying the scaler cannot
alter), while the `data/X_train.csv` and `data/X_test.csv` writes carry
the scaled frames — for every library behaviour and every dataset. -/
theorem original_csvs_equal_pre_scaling_split (lib : SkLib) (ds : Dataset) :
    (writesOf (traceOf lib ds)).lookup "data/X_train_original.csv"
      = some (.csvInt (XtrainPre ds))
    ∧ (writesOf (traceOf lib ds)).lookup "data/X_test_original.csv"
      = some (.csvInt (XtestPre ds))
    ∧ XtrainPre ds = (splitOf ds).1.map Prod.fst
    ∧ XtestPre ds = (splitOf ds).2.map Prod.fst
    ∧ (writesOf (traceOf lib ds)).lookup "data/X_train.csv"
      = some (.csvQ (XtrainScaled lib ds))
    ∧ (writesOf (traceOf lib ds)).lookup "data/X_test.csv"
      = some (.csvQ (XtestScaled lib ds)) :=
  ⟨rfl, rfl, rfl, rfl, rfl, rfl⟩

/-- The number of test rows a class of size `c` receives when the classes
before it hold `p` rows: the cumulative-rounding allocation never
exceeds the class size (when the test total `q` is at most `n`). -/
theorem alloc_le {q n : ℕ} (hn : 0 < n) (hq : q ≤ n) (p c : ℕ) :
    (p + c) * q / n - p * q / n ≤ c := by
  have h1 : (p + c) * q = p * q + c * q := by ring
  have h2 : c * q ≤ c * n := Nat.mul_le_mul_left c hq
  have h3 : (p + c) * q / n ≤ (p * q + c * n) / n := by
    rw [h1]; exact Nat.div_le_div_right (Nat.add_le_add_left h2 _)
  have h4 : (p * q + c * n) / n = p * q / n + c := by
    rw [Nat.mul_comm c n]; exact Nat.add_mul_div_left _ _ hn
  omega

/-- The cumulative-rounding allocation differs from the exact proportional
share `c * q / n` by less than one row: `|t * n - c * q| ≤ n - 1`. -/
theorem alloc_bound {q n : ℕ} (hn : 0 < n) (p c : ℕ) :
    |((((p + c) * q / n - p * q / n : ℕ) : ℤ)) * (n : ℤ) - (c : ℤ) * (q : ℤ)|
      ≤ (n : ℤ) - 1 := by
  have hmono : p * q / n ≤ (p + c) * q / n :=
    Nat.div_le_div_right (Nat.mul_le_mul_right q (Nat.le_add_right p c))
  have hcast : ((((p + c) * q / n - p * q / n : ℕ) : ℤ))
      = (((p + c) * q / n : ℕ) : ℤ) - ((p * q / n : ℕ) : ℤ) := by
    push_cast [hmono]; ring
  have h1 : (n : ℤ) * ((p * q / n : ℕ) : ℤ) + ((p * q % n : ℕ) : ℤ) = ((p * q : ℕ) : ℤ) := by
    exact_mod_cast congrArg (fun x : ℕ => (x : ℤ)) (Nat.div_add_mod (p * q) n)
  have h2 : (n : ℤ) * (((p + c) * q / n : ℕ) : ℤ) + (((p + c) * q % n : ℕ) : ℤ)
      = (((p + c) * q : ℕ) : ℤ) := by
    exact_mod_cast congrArg (fun x : ℕ => (x : ℤ)) (Nat.div_add_mod ((p + c) * q) n)
  have hr1 : ((p * q % n : ℕ) : ℤ) < (n : ℤ) := by exact_mod_cast Nat.mod_lt _ hn
  have hr2 : (((p + c) * q % n : ℕ) : ℤ) < (n : ℤ) := by exact_mod_cast Nat.mod_lt _ hn
  have hr1' : (0 : ℤ) ≤ ((p * q % n : ℕ) : ℤ) := Int.ofNat_nonneg _
  have hr2' : (0 : ℤ) ≤ (((p + c) * q % n : ℕ) : ℤ) := Int.ofNat_nonneg _
  have hexp : (((p + c) * q : ℕ) : ℤ) = ((p * q : ℕ) : ℤ) + (c : ℤ) * (q : ℤ) := by
    push_cast; ring
  rw [hcast, abs_le]
  constructor <;> linarith

/-- The total per-class row count of `rows` over a set of labels. -/
def labelCntSum (rows : List (α × ℤ)) (cs : List ℤ) : ℕ :=
  (cs.map (fun c => rows.countP (fun r => decide (r.2 = c)))).sum

/-- The test half of `stratGo` telescopes: its size is the cumulative
allocation of all the listed classes. -/
theorem stratGo_test_length {q n : ℕ} (rows : List (α × ℤ)) (hn : 0 < n) (hq : q ≤ n) :
    ∀ (cs : List ℤ) (p : ℕ),
      (stratGo rows q n p cs).2.length = (p + labelCntSum rows cs) * q / n - p * q / n
  | [], p => by simp [stratGo, labelCntSum]
  | c :: cs, p => by
    have ih := stratGo_test_length rows hn hq cs
      (p + rows.countP (fun r => decide (r.2 = c)))
    have hlen : (rows.filter (fun r => decide (r.2 = c))).length
        = rows.countP (fun r => decide (r.2 = c)) :=
      (List.countP_eq_length_filter _ _).symm
    have hle := alloc_le hn hq p (rows.countP (fun r => decide (r.2 = c)))
    have m1 : p * q / n ≤ (p + rows.countP (fun r => decide (r.2 = c))) * q / n :=
      Nat.div_le_div_right (Nat.mul_le_mul_right q (Nat.le_add_right _ _))
    have m2 : (p + rows.countP (fun r => decide (r.2 = c))) * q / n
        ≤ (p + rows.countP (fun r => decide (r.2 = c)) + labelCntSum rows cs) * q / n :=
      Nat.div_le_div_right (Nat.mul_le_mul_right q (Nat.le_add_right _ _))
    have hS : labelCntSum rows (c :: cs)
        = rows.countP (fun r => decide (r.2 = c)) + labelCntSum rows cs := by
      simp [labelCntSum]
    simp only [stratGo, List.length_append, List.length_take, ih, hlen]
    rw [min_eq_left hle, hS, ← Nat.add_assoc]
    omega

/-- Every row placed by `stratGo` carries one of the listed labels. -/
theorem stratGo_mem_label (rows : List (α × ℤ)) (q n : ℕ) :
    ∀ (cs : List ℤ) (p : ℕ) (r : α × ℤ),
      (r ∈ (stratGo rows q n p cs).1 → r.2 ∈ cs)
      ∧ (r ∈ (stratGo rows q n p cs).2 → r.2 ∈ cs)
  | [], p, r => by simp [stratGo]
  | c :: cs, p, r => by
    constructor <;> intro hr
    · simp only [stratGo, List.mem_append] at hr
      rcases hr with h | h
      · have := List.of_mem_filter (List.mem_of_mem_drop h)
        exact List.mem_cons.mpr (Or.inl (of_decide_eq_true this))
      · exact List.mem_cons_of_mem _ ((stratGo_mem_label rows q n cs _ r).1 h)
    · simp only [stratGo, List.mem_append] at hr
      rcases hr with h | h
      · have := List.of_mem_filter (List.mem_of_mem_take h)
        exact List.mem_cons.mpr (Or.inl (of_decide_eq_true this))
      · exact List.mem_cons_of_mem _ ((stratGo_mem_label rows q n cs _ r).2 h)

/-- A label outside the listed classes is never placed by `stratGo`. -/
theorem stratGo_countP_not_mem (rows : List (α × ℤ)) (q n : ℕ)
    (cs : List ℤ) (p : ℕ) (c : ℤ) (hc : c ∉ cs) :
    (stratGo rows q n p cs).1.countP (fun r => decide (r.2 = c)) = 0
    ∧ (stratGo rows q n p cs).2.countP (fun r => decide (r.2 = c)) = 0 := by
  constructor <;>
  · rw [List.countP_eq_zero]
    intro r hr hdec
    have hrc : r.2 = c := of_decide_eq_true hdec
    first
    | exact hc (hrc ▸ (stratGo_mem_label rows q n cs p r).1 hr)
    | exact hc (hrc ▸ (stratGo_mem_label rows q n cs p r).2 hr)

/-- For a listed class `c`, the test half of `stratGo` holds exactly the
cumulative-rounding allocation of `c` (for some prefix weight `w`), and
the train half holds the rest of the class. -/
theorem stratGo_countP_mem {q n : ℕ} (rows : List (α × ℤ)) (hn : 0 < n) (hq : q ≤ n) :
    ∀ (cs : List ℤ) (p : ℕ) (c : ℤ), cs.Nodup → c ∈ cs →
      ∃ w : ℕ,
        (stratGo rows q n p cs).2.countP (fun r => decide (r.2 = c))
          = (w + rows.countP (fun r => decide (r.2 = c))) * q / n - w * q / n
        ∧ (stratGo rows q n p cs).1.countP (fun r => decide (r.2 = c))
          = rows.countP (fun r => decide (r.2 = c))
            - ((w + rows.countP (fun r => decide (r.2 = c))) * q / n - w * q / n)
  | c' :: cs, p, c, hnd, hmem => by
    have hlen : (rows.filter (fun r => decide (r.2 = c'))).length
        = rows.countP (fun r => decide (r.2 = c')) :=
      (List.countP_eq_length_filter _ _).symm
    rcases List.mem_cons.mp hmem with rfl | h
    · have hnotin : c ∉ cs := (List.nodup_cons.mp hnd).1
      have hle := alloc_le hn hq p (rows.countP (fun r => decide (r.2 = c)))
      refine ⟨p, ?_, ?_⟩
      · simp only [stratGo, List.countP_append]
        have hz := (stratGo_countP_not_mem rows q n cs
          (p + rows.countP (fun r => decide (r.2 = c))) c hnotin).2
        rw [hz]
        have hall : ∀ r ∈ (rows.filter (fun r => decide (r.2 = c))).take
            ((p + rows.countP (fun r => decide (r.2 = c))) * q / n - p * q / n),
            decide (r.2 = c) = true := by
          intro r hr
          have hrf : r ∈ rows.filter (fun x => decide (x.2 = c)) :=
            List.mem_of_mem_take hr
          simpa using List.of_mem_filter hrf
        rw [List.countP_eq_length.mpr hall, List.length_take, hlen, min_eq_left hle]
        omega
      · simp only [stratGo, List.countP_append]
        have hz := (stratGo_countP_not_mem rows q n cs
          (p + rows.countP (fun r => decide (r.2 = c))) c hnotin).1
        rw [hz]
        have hall : ∀ r ∈ (rows.filter (fun r => decide (r.2 = c))).drop
            ((p + rows.countP (fun r => decide (r.2 = c))) * q / n - p * q / n),
            decide (r.2 = c) = true := by
          intro r hr
          have hrf : r ∈ rows.filter (fun x => decide (x.2 = c)) :=
            List.mem_of_mem_drop hr
          simpa using List.of_mem_filter hrf
        rw [List.countP_eq_length.mpr hall, List.length_drop, hlen]
        omega
    · have hne : c' ≠ c := by
        rintro rfl
        exact (List.nodup_cons.mp hnd).1 h
      obtain ⟨w, hte, htr⟩ := stratGo_countP_mem rows hn hq cs
        (p + rows.countP (fun r => decide (r.2 = c'))) c (List.nodup_cons.mp hnd).2 h
      have hz : ∀ (l : List (α × ℤ)), (∀ r ∈ l, r.2 = c') →
          l.countP (fun r => decide (r.2 = c)) = 0 := by
        intro l hl
        rw [List.countP_eq_zero]
        intro r hr hdec
        exact hne ((hl r hr).symm.trans (of_decide_eq_true hdec))
      have hmemT : ∀ r ∈ (rows.filter (fun r => decide (r.2 = c'))).take
          ((p + rows.countP (fun r => decide (r.2 = c'))) * q / n - p * q / n), r.2 = c' := by
        intro r hr
        have hrf : r ∈ rows.filter (fun x => decide (x.2 = c')) :=
          List.mem_of_mem_take hr
        have := List.of_mem_filter hrf
        simpa using this
      have hmemD : ∀ r ∈ (rows.filter (fun r => decide (r.2 = c'))).drop
          ((p + rows.countP (fun r => decide (r.2 = c'))) * q / n - p * q / n), r.2 = c' := by
        intro r hr
        have hrf : r ∈ rows.filter (fun x => decide (x.2 = c')) :=
          List.mem_of_mem_drop hr
        have := List.of_mem_filter hrf
        simpa using this
      refine ⟨w, ?_, ?_⟩
      · simp only [stratGo, List.countP_append]
        rw [hz _ hmemT, hte]
        omega
      · simp only [stratGo, List.countP_append]
        rw [hz _ hmemD, htr]
        omega

/-- Pointwise sums of mapped naturals split. -/
theorem sum_map_add (f g : ℤ → ℕ) :
    ∀ (l : List ℤ), (l.map (fun a => f a + g a)).sum = (l.map f).sum + (l.map g).sum
  | [] => rfl
  | a :: l => by
    simp only [List.map_cons, List.sum_cons, sum_map_add f g l]
    omega

/-- An indicator summed over a list avoiding the tested value vanishes. -/
theorem sum_indicator_of_not_mem (y : ℤ) :
    ∀ (cs : List ℤ), y ∉ cs → (cs.map (fun c => if y = c then 1 else 0)).sum = 0
  | [], _ => rfl
  | c :: cs, h => by
    have h1 : y ≠ c := fun hyc => h (hyc ▸ List.mem_cons_self c cs)
    simp [h1, sum_indicator_of_not_mem y cs (fun hm => h (List.mem_cons_of_mem c hm))]

/-- An indicator summed over a duplicate-free list containing the tested
value once is one. -/
theorem sum_indicator_nodup (y : ℤ) :
    ∀ (cs : List ℤ), cs.Nodup → y ∈ cs →
      (cs.map (fun c => if y = c then 1 else 0)).sum = 1
  | c :: cs, hnd, hmem => by
    rcases List.mem_cons.mp hmem with rfl | h
    · have hy : y ∉ cs := (List.nodup_cons.mp hnd).1
      simp [sum_indicator_of_not_mem y cs hy]
    · have hne : y ≠ c := by
        rintro rfl
        exact (List.nodup_cons.mp hnd).1 h
      simp [hne, sum_indicator_nodup y cs (List.nodup_cons.mp hnd).2 h]

/-- Summing each distinct value's multiplicity recovers the list length. -/
theorem sum_countP_dedup :
    ∀ (ys : List ℤ),
      (ys.dedup.map (fun c => ys.countP (fun y => decide (y = c)))).sum = ys.length
  | [] => rfl
  | y :: ys => by
    have hsplit : ∀ cs : List ℤ,
        (cs.map (fun c => (y :: ys).countP (fun x => decide (x = c))))
          = (cs.map (fun c => ys.countP (fun x => decide (x = c)) + if y = c then 1 else 0)) := by
      intro cs
      apply List.map_congr_left
      intro c _
      rw [List.countP_cons]
      simp
    by_cases hy : y ∈ ys
    · rw [List.dedup_cons_of_mem hy, hsplit, sum_map_add, sum_countP_dedup ys,
        sum_indicator_nodup y ys.dedup (List.nodup_dedup ys) (List.mem_dedup.mpr hy)]
      simp
    · rw [List.dedup_cons_of_not_mem hy, hsplit, List.map_cons, List.sum_cons,
        sum_map_add, sum_countP_dedup ys,
        sum_indicator_of_not_mem y ys.dedup (fun hm => hy (List.mem_dedup.mp hm))]
      have hcy : ys.countP (fun x => decide (x = y)) = 0 := by
        rw [List.countP_eq_zero]
        intro a ha hda
        exact hy ((of_decide_eq_true hda) ▸ ha)
      simp [hcy]
      omega

/-- The per-class counts over the distinct labels of `rows` sum to the
number of rows. -/
theorem labelCntSum_dedup (rows : List (α × ℤ)) :
    labelCntSum rows ((rows.map Prod.snd).dedup) = rows.length := by
  unfold labelCntSum
  have h : ∀ c, rows.countP (fun r => decide (r.2 = c))
      = (rows.map Prod.snd).countP (fun y => decide (y = c)) := by
    intro c
    rw [List.countP_map]
    rfl
  simp only [h]
  have := sum_countP_dedup (rows.map Prod.snd)
  simpa using this

/-- Claim C8: the script's train/test split (with the fixed seed 42) puts
`⌈n/5⌉` of the `n` rows in the test set (20% up to rounding), is
stratified — each class's test and train row counts are within one row
of the class's proportional share, i.e. the scaled difference
`|count·n − total·share|` stays below `n` — and is deterministic: it is
a function of the dataset alone, so equal datasets give equal splits. -/
theorem split_is_stratified_fifth_deterministic (rows : List (α × ℤ))
    (hn : 0 < rows.length) :
    (stratSplit 42 rows).2.length = (rows.length + 4) / 5
    ∧ rows.length ≤ 5 * ((rows.length + 4) / 5)
    ∧ 5 * ((rows.length + 4) / 5) ≤ rows.length + 4
    ∧ (∀ c ∈ (rows.map Prod.snd).dedup,
        |((stratSplit 42 rows).2.countP (fun r => decide (r.2 = c)) : ℤ) * (rows.length : ℤ)
            - (rows.countP (fun r => decide (r.2 = c)) : ℤ)
              * (((rows.length + 4) / 5 : ℕ) : ℤ)|
          ≤ (rows.length : ℤ) - 1
        ∧ |((stratSplit 42 rows).1.countP (fun r => decide (r.2 = c)) : ℤ) * (rows.length : ℤ)
            - (rows.countP (fun r => decide (r.2 = c)) : ℤ)
              * ((rows.length : ℤ) - (((rows.length + 4) / 5 : ℕ) : ℤ))|
          ≤ (rows.length : ℤ) - 1)
    ∧ (∀ rows2 : List (α × ℤ), rows2 = rows → stratSplit 42 rows2 = stratSplit 42 rows) := by
  have hq : (rows.length + 4) / 5 ≤ rows.length := by omega
  refine ⟨?_, by omega, by omega, ?_, fun rows2 h => by rw [h]⟩
  · have h := stratGo_test_length rows hn hq ((rows.map Prod.snd).dedup) 0
    have h' : (stratSplit 42 rows).2.length
        = (0 + labelCntSum rows ((rows.map Prod.snd).dedup)) * ((rows.length + 4) / 5)
            / rows.length
          - 0 * ((rows.length + 4) / 5) / rows.length := h
    rw [h', labelCntSum_dedup, Nat.zero_add, Nat.zero_mul, Nat.zero_div, Nat.sub_zero]
    exact Nat.mul_div_cancel_left _ hn
  · intro c hc
    obtain ⟨w, hte, htr⟩ := stratGo_countP_mem rows hn hq ((rows.map Prod.snd).dedup) 0 c
      (List.nodup_dedup _) hc
    have hte' : (stratSplit 42 rows).2.countP (fun r => decide (r.2 = c))
        = (w + rows.countP (fun r => decide (r.2 = c))) * ((rows.length + 4) / 5)
            / rows.length
          - w * ((rows.length + 4) / 5) / rows.length := hte
    have htr' : (stratSplit 42 rows).1.countP (fun r => decide (r.2 = c))
        = rows.countP (fun r => decide (r.2 = c))
          - ((w + rows.countP (fun r => decide (r.2 = c))) * ((rows.length + 4) / 5)
              / rows.length
            - w * ((rows.length + 4) / 5) / rows.length) := htr
    have hb := alloc_bound (q := (rows.length + 4) / 5) (n := rows.length) hn w
      (rows.countP (fun r => decide (r.2 = c)))
    have hle := alloc_le (q := (rows.length + 4) / 5) (n := rows.length) hn hq w
      (rows.countP (fun r => decide (r.2 = c)))
    constructor
    · rw [hte']
      exact hb
    · rw [htr']
      have hcast : ((rows.countP (fun r => decide (r.2 = c))
          - ((w + rows.countP (fun r => decide (r.2 = c))) * ((rows.length + 4) / 5)
              / rows.length
            - w * ((rows.length + 4) / 5) / rows.length) : ℕ) : ℤ)
          = (rows.countP (fun r => decide (r.2 = c)) : ℤ)
            - (((w + rows.countP (fun r => decide (r.2 = c))) * ((rows.length + 4) / 5)
                / rows.length
              - w * ((rows.length + 4) / 5) / rows.length : ℕ) : ℤ) := by
        push_cast [hle]
        ring
      rw [hcast]
      have hring : ((rows.countP (fun r => decide (r.2 = c)) : ℤ)
            - (((w + rows.countP (fun r => decide (r.2 = c))) * ((rows.length + 4) / 5)
                / rows.length
              - w * ((rows.length + 4) / 5) / rows.length : ℕ) : ℤ)) * (rows.length : ℤ)
            - (rows.countP (fun r => decide (r.2 = c)) : ℤ)
              * ((rows.length : ℤ) - (((rows.length + 4) / 5 : ℕ) : ℤ))
          = -((((w + rows.countP (fun r => decide (r.2 = c))) * ((rows.length + 4) / 5)
                / rows.length
              - w * ((rows.length + 4) / 5) / rows.length : ℕ) : ℤ) * (rows.length : ℤ)
            - (rows.countP (fun r => decide (r.2 = c)) : ℤ)
              * (((rows.length + 4) / 5 : ℕ) : ℤ)) := by
        ring
      rw [hring, abs_neg]
      exact hb

/-- Witness for C8 at a concrete five-row dataset with a binary label:
the test set holds `⌈5/5⌉ = 1` row. -/
theorem split_is_stratified_fifth_deterministic_witness :
    0 < ([([1], (0 : ℤ)), ([2], 1), ([3], 0), ([4], 1), ([5], 1)]
        : List (List ℤ × ℤ)).length
    ∧ (stratSplit 42 ([([1], (0 : ℤ)), ([2], 1), ([3], 0), ([4], 1), ([5], 1)]
        : List (List ℤ × ℤ))).2.length
      = (([([1], (0 : ℤ)), ([2], 1), ([3], 0), ([4], 1), ([5], 1)]
          : List (List ℤ × ℤ)).length + 4) / 5 :=
  ⟨by decide,
   (split_is_stratified_fifth_deterministic
      ([([1], (0 : ℤ)), ([2], 1), ([3], 0), ([4], 1), ([5], 1)]) (by decide)).1⟩

end PedApp
